import Mathlib

/-!
Verification of the SSL-record reconciliation service (src/index.js).

The service keeps a local SQLite table `ssl_records` of Cloudflare custom-hostname
certificate records and exposes HTTP handlers that create, read, recheck, update
and delete records.  We embed the table as a list of rows, the SQL statements as
pure functions on that list, the retry loop `fetchCloudflareStatus` as a
structurally recursive function over an oracle describing the authority's answer
to each successive call, and the handlers as state-passing functions.
Timestamps (`CURRENT_TIMESTAMP`) are modelled as an explicit `now : Nat` argument.
-/

namespace ServerMonitoring

/-- A row of the `ssl_records` table:
`id TEXT PRIMARY KEY, hostname TEXT UNIQUE, status TEXT,
 created_at TEXT DEFAULT CURRENT_TIMESTAMP, updated_at TEXT DEFAULT CURRENT_TIMESTAMP`. -/
structure Row where
  id : String
  hostname : String
  status : String
  created_at : Nat
  updated_at : Nat
deriving DecidableEq

/-- The `ssl_records` table. -/
abbrev DB := List Row

/-- `SELECT * FROM ssl_records WHERE id = ?` (point lookup, first match). -/
def getById (db : DB) (i : String) : Option Row :=
  db.find? (fun r => r.id == i)

/-- `SELECT * FROM ssl_records WHERE hostname = ?` (point lookup, first match). -/
def getByHostname (db : DB) (h : String) : Option Row :=
  db.find? (fun r => r.hostname == h)

/-- `INSERT OR REPLACE INTO ssl_records (id, hostname, status, updated_at)
     VALUES (?, ?, ?, CURRENT_TIMESTAMP)` (src/index.js lines 74-77).
SQLite `REPLACE` first deletes every existing row that conflicts with the new one
on the `id` primary key or on the `hostname` UNIQUE index, then inserts the new
row.  `created_at` is omitted from the column list, so the freshly inserted row
takes its column DEFAULT, `CURRENT_TIMESTAMP`, i.e. `now`. -/
def insertOrReplace (db : DB) (i h s : String) (now : Nat) : DB :=
  ⟨i, h, s, now, now⟩ :: db.filter (fun r => !(r.id == i || r.hostname == h))

/-- `UPDATE ssl_records SET status = ?, updated_at = CURRENT_TIMESTAMP WHERE id = ?`
(the background reconciliation write, lines 87-91, and the recheck write,
lines 150-156). -/
def updateStatusAndTime (db : DB) (i s : String) (now : Nat) : DB :=
  db.map (fun r => if r.id == i then { r with status := s, updated_at := now } else r)

/-- `UPDATE ssl_records SET status = ? WHERE id = ?`
(the PUT /ssl/:id write, lines 181-184; note: no `updated_at` column). -/
def updateStatusOnly (db : DB) (i s : String) : DB :=
  db.map (fun r => if r.id == i then { r with status := s } else r)

/-- `DELETE FROM ssl_records WHERE id = ?` (line 206). -/
def deleteById (db : DB) (i : String) : DB :=
  db.filter (fun r => !(r.id == i))

/-- Insert a row into a list sorted by `created_at` descending. -/
def insertByCreatedDesc (r : Row) : DB → DB
  | [] => [r]
  | x :: xs =>
    if x.created_at ≤ r.created_at then r :: x :: xs else x :: insertByCreatedDesc r xs

/-- `SELECT * FROM ssl_records ORDER BY created_at DESC` (lines 220-222). -/
def listRecords (db : DB) : DB :=
  db.foldr insertByCreatedDesc []

/-- How many rows of the table carry the given hostname. -/
def countHostname (db : DB) (h : String) : Nat :=
  (db.filter (fun r => r.hostname == h)).length

/-- The decoded `result` object of a Cloudflare custom-hostname API response;
the engine only ever touches its `id`, `hostname` and `status` fields. -/
structure SslResult where
  id : String
  hostname : String
  status : String
deriving DecidableEq

/-- The loop body of `fetchCloudflareStatus` (src/index.js lines 244-261):
`for (let i = 0; i < retries; i++) { try { return get(i) } catch (err) {
   if (i === retries - 1) throw err; sleep } }`.
`get j` is the authority's answer to the (j+1)-th GET call.  `i` is the loop
index and `rem` the number of iterations the guard `i < retries` still allows
(`rem = retries - i` at every call).  The returned `Nat` is the next loop index,
which equals the number of `get` calls performed.  Falling off the end of the
loop resolves the async function with `undefined`, modelled as `Except.ok none`;
throwing the last error is `Except.error e`. -/
def pollAux {E R : Type} (get : Nat → Except E R) (retries : Nat) :
    Nat → Nat → Except E (Option R) × Nat
  | i, 0 => (Except.ok none, i)
  | i, rem + 1 =>
    match get i with
    | Except.ok r => (Except.ok (some r), i + 1)
    | Except.error e =>
      if i = retries - 1 then (Except.error e, i + 1)
      else pollAux get retries (i + 1) rem

/-- `fetchCloudflareStatus(hostnameOrId, retries)`: run the retry loop from
index 0 with the full `retries` budget.  First component: the function's
outcome; second component: the number of authority `get` calls made. -/
def fetchCloudflareStatus {E R : Type} (get : Nat → Except E R) (retries : Nat) :
    Except E (Option R) × Nat :=
  pollAux get retries 0 retries

/-- The JSON body sent back by POST /ssl on success:
`{ success: true, data: { ...ssl, status: "pending" } }` — the spread keeps the
authority record's `id` and `hostname` and the trailing field overrides `status`. -/
structure CreateResponse where
  success : Bool
  id : String
  hostname : String
  status : String
deriving DecidableEq

/-- The synchronous part of the POST /ssl handler after the authority `create`
call returned `ssl` (src/index.js lines 71-80): save the record in the table
with status "pending" (INSERT OR REPLACE), then respond to the client — all
before the detached background task runs. -/
def postSslSync (db : DB) (ssl : SslResult) (now : Nat) : CreateResponse × DB :=
  let db' := insertOrReplace db ssl.id ssl.hostname "pending" now
  (⟨true, ssl.id, ssl.hostname, "pending"⟩, db')

/-- The detached background task of POST /ssl (lines 83-97): run
`fetchCloudflareStatus(ssl.id, 3)`, and on success
`UPDATE ssl_records SET status = ?, updated_at = CURRENT_TIMESTAMP WHERE id = ?`.
`auth i` is the oracle of authority answers for GET calls about id `i`.
If the poll throws, the catch block only logs, leaving the table unchanged;
a poll resolving with `undefined` would throw reading `updated.status` before
any write, which the same catch absorbs. -/
def postSslBackground (db : DB) (sslId : String)
    (auth : String → Nat → Except String SslResult) (now : Nat) : DB :=
  match (fetchCloudflareStatus (auth sslId) 3).1 with
  | Except.ok (some updated) => updateStatusAndTime db sslId updated.status now
  | Except.ok none => db
  | Except.error _ => db

/-- Outcome of GET /ssl/:hostname as seen by the client. -/
inductive ReadResult where
  | okLocal (r : Row)
  | okRemote (r : SslResult)
  | notFound
  | authFailure (e : String)
deriving DecidableEq

/-- GET /ssl/:hostname (lines 106-133): serve the local row when present;
otherwise query the authority with a hostname filter.  `authority` is the
outcome of that live lookup: `Except.ok (some r)` when `result[0]` exists,
`Except.ok none` when the filter matched nothing (→ 404), `Except.error` when
the request threw (→ 500).  No branch writes to the table. -/
def readHandler (db : DB) (h : String)
    (authority : Except String (Option SslResult)) : ReadResult × DB :=
  match getByHostname db h with
  | some r => (ReadResult.okLocal r, db)
  | none =>
    match authority with
    | Except.error e => (ReadResult.authFailure e, db)
    | Except.ok none => (ReadResult.notFound, db)
    | Except.ok (some result) => (ReadResult.okRemote result, db)

/-- Outcome of GET /ssl/:hostname/recheck as seen by the client. -/
inductive RecheckResult where
  | ok (r : SslResult)
  | notFound
  | failure (e : String)
deriving DecidableEq

/-- GET /ssl/:hostname/recheck (lines 136-164): look the hostname up locally,
404 when absent; otherwise run `fetchCloudflareStatus(record.id, 3)`
synchronously, write the fetched status (and a fresh `updated_at`) back by id,
and return the fetched record.  A thrown poll is caught and surfaced as a 500
error with the table untouched.  (A poll resolving with `undefined` — impossible
with 3 attempts — would throw on `updated.status` before the write; the same
catch turns it into a 500.) -/
def recheckHandler (db : DB) (h : String)
    (auth : String → Nat → Except String SslResult) (now : Nat) :
    RecheckResult × DB :=
  match getByHostname db h with
  | none => (RecheckResult.notFound, db)
  | some record =>
    match (fetchCloudflareStatus (auth record.id) 3).1 with
    | Except.error e => (RecheckResult.failure e, db)
    | Except.ok none => (RecheckResult.failure "TypeError", db)
    | Except.ok (some updated) =>
      (RecheckResult.ok updated, updateStatusAndTime db record.id updated.status now)

/-- Outcome of PUT /ssl/:id or DELETE /ssl/:id as seen by the client: on
authority success the handler echoes the decoded authority result. -/
inductive CallResult (α : Type) where
  | ok (body : α)
  | failure (e : String)
deriving DecidableEq

/-- PUT /ssl/:id (lines 167-193): forward the patch to the authority; on success
`UPDATE ssl_records SET status = ? WHERE id = ?` (no `updated_at`!) and echo the
authority's record; on a thrown request answer 500 without writing. -/
def putSslHandler (db : DB) (i : String)
    (patched : Except String SslResult) : CallResult SslResult × DB :=
  match patched with
  | Except.error e => (CallResult.failure e, db)
  | Except.ok updated => (CallResult.ok updated, updateStatusOnly db i updated.status)

/-- DELETE /ssl/:id (lines 196-215): call the authority's delete; whenever the
HTTP call itself succeeded — whatever the decoded `result` body says —
`DELETE FROM ssl_records WHERE id = ?` and echo the body; on a thrown request
answer 500 without deleting locally. -/
def deleteHandler (db : DB) (i : String)
    (authority : Except String String) : CallResult String × DB :=
  match authority with
  | Except.error e => (CallResult.failure e, db)
  | Except.ok body => (CallResult.ok body, deleteById db i)

/-- A sequence of POST /ssl creates for one hostname `h`: each element gives the
id the authority assigned and the write's timestamp; each performs the handler's
`INSERT OR REPLACE` with status "pending". -/
def runCreates (h : String) (ops : List (String × Nat)) (db : DB) : DB :=
  ops.foldl (fun d p => insertOrReplace d p.1 h "pending" p.2) db

/-! ### Poller lemmas -/

/-- If every authority call strictly before attempt `t` fails and attempt `t`
succeeds with `r`, the loop started at index `i ≤ t` (with the invariant
`i + rem = retries`) returns `r` after `t + 1` calls. -/
lemma pollAux_ok {E R : Type} (get : Nat → Except E R) (retries t : Nat) (r : R) :
    ∀ rem i, i + rem = retries → i ≤ t → t < retries →
      (∀ j, i ≤ j → j < t → ∃ ej, get j = Except.error ej) →
      get t = Except.ok r →
      pollAux get retries i rem = (Except.ok (some r), t + 1) := by
  intro rem
  induction rem with
  | zero =>
    intro i hsum hit htr _ _
    omega
  | succ k ih =>
    intro i hsum hit htr hfail hok
    by_cases hi : i = t
    · subst hi
      simp [pollAux, hok]
    · have hit' : i < t := lt_of_le_of_ne hit hi
      obtain ⟨ej, hej⟩ := hfail i le_rfl hit'
      have hne : ¬ i = retries - 1 := by omega
      simp only [pollAux, hej, if_neg hne]
      exact ih (i + 1) (by omega) (by omega) htr
        (fun j hj1 hj2 => hfail j (by omega) hj2) hok

/-- If every authority call from index `i` on fails, the loop throws the error
of the final attempt, `retries - 1`, after `retries` calls. -/
lemma pollAux_exhaust {E R : Type} (get : Nat → Except E R) (retries : Nat) (e : Nat → E) :
    ∀ rem i, i + rem = retries → 0 < rem →
      (∀ j, i ≤ j → j < retries → get j = Except.error (e j)) →
      pollAux get retries i rem = (Except.error (e (retries - 1)), retries) := by
  intro rem
  induction rem with
  | zero =>
    intro i _ h0 _
    omega
  | succ k ih =>
    intro i hsum _ hfail
    have hi : i < retries := by omega
    have hei := hfail i le_rfl hi
    by_cases hlast : i = retries - 1
    · have hik : retries - 1 + 1 = retries := by omega
      subst hlast
      simp only [pollAux, hei, eq_self_iff_true, if_true, hik]
    · have hk : 0 < k := by omega
      simp only [pollAux, hei, if_neg hlast]
      exact ih (i + 1) (by omega) hk (fun j hj1 hj2 => hfail j (by omega) hj2)

/-- C3: with `maxAttempts = m ≥ 1`, an authority failing the first `m - 1`
calls and succeeding on the final one makes `fetchCloudflareStatus` return the
success (after exactly `m` calls); an authority failing all `m` calls makes it
fail with the last attempt's failure. -/
theorem poll_retry_budget {E R : Type} (m : Nat) (hm : 1 ≤ m)
    (get getAll : Nat → Except E R) (r : R) (e : Nat → E)
    (hfail : ∀ j, j < m - 1 → get j = Except.error (e j))
    (hsucc : get (m - 1) = Except.ok r)
    (hall : ∀ j, j < m → getAll j = Except.error (e j)) :
    fetchCloudflareStatus get m = (Except.ok (some r), m) ∧
    fetchCloudflareStatus getAll m = (Except.error (e (m - 1)), m) := by
  constructor
  · have := pollAux_ok get m (m - 1) r m 0 (by omega) (by omega) (by omega)
      (fun j _ hj2 => ⟨e j, hfail j hj2⟩) hsucc
    rw [fetchCloudflareStatus, this]
    have hm1 : m - 1 + 1 = m := by omega
    rw [hm1]
  · exact pollAux_exhaust getAll m e m 0 (by omega) hm (fun j _ hj2 => hall j hj2)

/-- Concrete stub authority for the poller witness: fails attempt 0, succeeds
on attempt 1. -/
def stubGetOnceFailing : Nat → Except Nat Nat :=
  fun j => if j = 1 then Except.ok 42 else Except.error j

/-- Concrete stub authority for the poller witness: every attempt fails. -/
def stubGetAlwaysFailing : Nat → Except Nat Nat :=
  fun j => Except.error j

/-- Witness for C3 at `m = 2`: one failure then a success yields the success;
two failures yield the second failure. -/
theorem poll_retry_budget_witness :
    fetchCloudflareStatus stubGetOnceFailing 2 = (Except.ok (some 42), 2) ∧
    fetchCloudflareStatus stubGetAlwaysFailing 2 = (Except.error 1, 2) :=
  poll_retry_budget 2 (by omega) stubGetOnceFailing stubGetAlwaysFailing 42 (fun j => j)
    (by
      intro j hj
      have hj0 : j = 0 := by omega
      subst hj0
      rfl)
    rfl
    (by
      intro j hj
      interval_cases j <;> rfl)

/-- C10: `fetchCloudflareStatus` with a retry budget of 0 never enters the
loop body: it makes no authority call (call count 0) and resolves with
`undefined` (`Except.ok none`), raising no error — for every authority oracle. -/
theorem poll_zero_budget {E R : Type} (get : Nat → Except E R) :
    fetchCloudflareStatus get 0 = (Except.ok none, 0) := rfl

/-! ### Record-store lemmas -/

/-- After the Create upsert, the row stored under the written id is exactly the
freshly inserted row: both of its timestamps equal the write time `now`,
whatever (if anything) the table previously held for that id or hostname. -/
lemma getById_insertOrReplace (db : DB) (i h s : String) (now : Nat) :
    getById (insertOrReplace db i h s now) i = some ⟨i, h, s, now, now⟩ := by
  simp [getById, insertOrReplace, List.find?]

/-- Every row of the post-upsert table carrying the written id is the freshly
inserted row, so in particular its `updated_at` is the write time. -/
lemma mem_insertOrReplace_id (db : DB) (i h s : String) (now : Nat) (r : Row)
    (hr : r ∈ insertOrReplace db i h s now) (hid : r.id = i) :
    r = ⟨i, h, s, now, now⟩ := by
  rw [insertOrReplace] at hr
  rcases List.mem_cons.mp hr with hhead | htail
  · exact hhead
  · have hfilter := (List.mem_filter.mp htail).2
    rw [hid] at hfilter
    simp at hfilter

/-- A row of the table after
`UPDATE ssl_records SET status = ?, updated_at = CURRENT_TIMESTAMP WHERE id = ?`
that carries the targeted id has the written status and the fresh timestamp. -/
lemma mem_updateStatusAndTime (db : DB) (i s : String) (now : Nat) (r : Row)
    (hr : r ∈ updateStatusAndTime db i s now) (hid : r.id = i) :
    r.status = s ∧ r.updated_at = now := by
  rw [updateStatusAndTime] at hr
  obtain ⟨x, hx, hmap⟩ := List.mem_map.mp hr
  by_cases hcond : (x.id == i) = true
  · rw [if_pos hcond] at hmap
    rw [← hmap]
    exact ⟨rfl, rfl⟩
  · rw [if_neg hcond] at hmap
    subst hmap
    exact absurd (by simpa using hid) hcond

/-- `UPDATE ssl_records SET status = ? WHERE id = ?` (the PUT handler's write)
leaves every row's `updated_at` exactly as it was. -/
lemma updateStatusOnly_updated_at (db : DB) (i s : String) :
    (updateStatusOnly db i s).map Row.updated_at = db.map Row.updated_at := by
  rw [updateStatusOnly, List.map_map]
  apply List.map_congr_left
  intro r _
  by_cases hcond : (r.id == i) = true <;> simp [Function.comp, hcond]

/-- If no row of the table carries id `i`, the background/recheck UPDATE keyed
on `i` is the identity on the table. -/
lemma updateStatusAndTime_absent (db : DB) (i s : String) (now : Nat)
    (habs : getById db i = none) : updateStatusAndTime db i s now = db := by
  have h2 : ∀ r ∈ db, (r.id == i) = false := by
    intro r hr
    have h3 := List.find?_eq_none.mp habs r hr
    simpa using h3
  have hpt : ∀ r ∈ db,
      (if (r.id == i) = true then { r with status := s, updated_at := now } else r) = r := by
    intro r hr
    rw [h2 r hr]
    simp
  rw [updateStatusAndTime]
  rw [List.map_congr_left hpt]
  exact List.map_id' db

/-! ### Claim C1 -/

/-- Counterexample to C1 as stated: insert id "abc" at time 1 (`createdAt = 1`),
re-upsert the same id/hostname at time 5 — the stored `createdAt` is now 5, not
the preserved 1: `INSERT OR REPLACE` replaced the row and the omitted
`created_at` column took its `CURRENT_TIMESTAMP` default. -/
theorem createdAt_reset_on_reupsert :
    (getById (insertOrReplace (insertOrReplace [] "abc" "example.com" "pending" 1)
        "abc" "example.com" "pending" 5) "abc").map Row.created_at = some 5 ∧
    (getById (insertOrReplace (insertOrReplace [] "abc" "example.com" "pending" 1)
        "abc" "example.com" "pending" 5) "abc").map Row.created_at ≠ some 1 := by
  constructor
  · rfl
  · intro hcontra
    simp [getById, insertOrReplace, List.find?] at hcontra

/-- C1 (amended): a Create upsert never preserves an existing row's
`createdAt`; after every `INSERT OR REPLACE` — first insert or re-upsert —
the row stored under the written id has `createdAt` (and `updatedAt`) equal
to the time of that write, because SQLite replaces the conflicting row and
the omitted `created_at` column takes its `CURRENT_TIMESTAMP` default. -/
theorem create_upsert_sets_createdAt_to_now (db : DB) (i h s : String) (now : Nat) :
    getById (insertOrReplace db i h s now) i = some ⟨i, h, s, now, now⟩ :=
  getById_insertOrReplace db i h s now

/-! ### Claim C2 -/

/-- Counterexample to C2 as stated: a successful UpdateSettings (PUT /ssl/:id)
against the row `⟨"a", "h", "pending", 1, 1⟩` writes the new status "active"
but leaves `updated_at` at its old value 1 — the handler's UPDATE statement
names no `updated_at` column (and receives no clock at all), so this write does
not refresh the record's `updatedAt`. -/
theorem updateSettings_leaves_updatedAt_stale :
    (putSslHandler [⟨"a", "h", "pending", 1, 1⟩] "a"
        (Except.ok ⟨"a", "h", "active"⟩)).2 = [⟨"a", "h", "active", 1, 1⟩] := rfl

/-- C2 (amended): Create's synchronous upsert, the background reconciliation
write and Recheck's write all refresh the written record's `updatedAt` to the
write time, but UpdateSettings' write does not touch `updatedAt` — it maps
every row's `updated_at` to itself. -/
theorem writes_refresh_updatedAt_except_updateSettings
    (db : DB) (i h s : String) (now : Nat) :
    (∀ r, r ∈ insertOrReplace db i h s now → r.id = i → r.updated_at = now) ∧
    (∀ r, r ∈ updateStatusAndTime db i s now → r.id = i → r.updated_at = now) ∧
    (updateStatusOnly db i s).map Row.updated_at = db.map Row.updated_at := by
  refine ⟨?_, ?_, updateStatusOnly_updated_at db i s⟩
  · intro r hr hid
    rw [mem_insertOrReplace_id db i h s now r hr hid]
  · intro r hr hid
    exact (mem_updateStatusAndTime db i s now r hr hid).2

/-- Witness for the amended C2 at concrete inputs: the upserted row's
`updated_at` is the write time 7, and the PUT write leaves the single row's
`updated_at` at 1. -/
theorem writes_refresh_updatedAt_witness :
    (⟨"a", "h2", "active", 7, 7⟩ : Row).updated_at = 7 ∧
    (updateStatusOnly [⟨"a", "h", "pending", 1, 1⟩] "a" "active").map Row.updated_at = [1] :=
  ⟨(writes_refresh_updatedAt_except_updateSettings [⟨"a", "h", "pending", 1, 1⟩]
        "a" "h2" "active" 7).1 ⟨"a", "h2", "active", 7, 7⟩ (by decide) rfl,
   ((writes_refresh_updatedAt_except_updateSettings [⟨"a", "h", "pending", 1, 1⟩]
        "a" "h2" "active" 7).2.2).trans (by decide)⟩

/-! ### Claim C4 -/

/-- C4: whatever status the authority reported on create, the POST /ssl
handler's synchronous leg answers the caller with status "pending" and — before
the detached background reconciliation runs — the table holds the row for the
returned id with status "pending". -/
theorem create_responds_and_stores_pending (db : DB) (ssl : SslResult) (now : Nat) :
    (postSslSync db ssl now).1 = ⟨true, ssl.id, ssl.hostname, "pending"⟩ ∧
    getById (postSslSync db ssl now).2 ssl.id
      = some ⟨ssl.id, ssl.hostname, "pending", now, now⟩ :=
  ⟨rfl, getById_insertOrReplace db ssl.id ssl.hostname "pending" now⟩

/-! ### Claim C5 -/

/-- Counterexample to C5 as stated, at the exact claimed schedule: Create's
synchronous upsert stores row "abc"; the Delete handler (authority call
succeeded) removes it; then the still-in-flight background reconciliation
completes with a successful poll reporting status "active" — and the table
still has no row for "abc": the deleted record was not resurrected. -/
theorem delete_then_background_leaves_no_row :
    getById
      (postSslBackground
        ((deleteHandler ((postSslSync [] ⟨"abc", "example.com", "x"⟩ 0).2)
            "abc" (Except.ok "deleted")).2)
        "abc" (fun _ _ => Except.ok ⟨"abc", "example.com", "active"⟩) 5)
      "abc" = none := rfl

/-- C5 (amended): the background reconciliation write cannot re-create a
deleted local record.  It is an `UPDATE ... WHERE id = ?`, which matches no row
once the row is gone, so when the local row for the id is absent the whole
background task leaves the table exactly unchanged — the racing Delete wins and
the background status write is silently lost, never resurrected. -/
theorem background_task_cannot_resurrect (db : DB) (i : String)
    (auth : String → Nat → Except String SslResult) (now : Nat)
    (habs : getById db i = none) :
    postSslBackground db i auth now = db := by
  cases hres : (fetchCloudflareStatus (auth i) 3).1 with
  | error e => simp [postSslBackground, hres]
  | ok o =>
    cases o with
    | none => simp [postSslBackground, hres]
    | some updated =>
      simp only [postSslBackground, hres]
      exact updateStatusAndTime_absent db i updated.status now habs

/-- Witness for the amended C5: on the emptied table the background task with a
successfully polling authority returns the table unchanged. -/
theorem background_task_cannot_resurrect_witness :
    postSslBackground [] "abc" (fun _ _ => Except.ok ⟨"abc", "example.com", "active"⟩) 5 = [] :=
  background_task_cannot_resurrect [] "abc"
    (fun _ _ => Except.ok ⟨"abc", "example.com", "active"⟩) 5 rfl

/-! ### Claim C6 -/

/-- The GET /ssl/:hostname handler never writes: its table component is the
input table in every branch. -/
lemma readHandler_snd (db : DB) (h : String) (a : Except String (Option SslResult)) :
    (readHandler db h a).2 = db := by
  cases hg : getByHostname db h with
  | some r => simp [readHandler, hg]
  | none =>
    cases a with
    | error e => simp [readHandler, hg]
    | ok o => cases o with
      | none => simp [readHandler, hg]
      | some result => simp [readHandler, hg]

/-- C6: Read(h) serves the stored record when one exists; on a local miss it
uses the authority lookup — answering NotFound when the authority reports
nothing and the authority's record otherwise — and in all cases writes nothing:
the table, and hence a subsequent list(), is unchanged. -/
theorem read_serves_local_else_authority_without_write
    (db : DB) (h : String) (a : Except String (Option SslResult)) :
    (readHandler db h a).2 = db ∧
    listRecords (readHandler db h a).2 = listRecords db ∧
    (∀ r, getByHostname db h = some r → (readHandler db h a).1 = ReadResult.okLocal r) ∧
    (getByHostname db h = none → a = Except.ok none →
      (readHandler db h a).1 = ReadResult.notFound) ∧
    (∀ result, getByHostname db h = none → a = Except.ok (some result) →
      (readHandler db h a).1 = ReadResult.okRemote result) := by
  refine ⟨readHandler_snd db h a, by rw [readHandler_snd db h a], ?_, ?_, ?_⟩
  · intro r hr
    simp [readHandler, hr]
  · intro hg ha
    subst ha
    simp [readHandler, hg]
  · intro result hg ha
    subst ha
    simp [readHandler, hg]

/-- Witness for C6: a present hostname is answered from the table with no
write; an absent hostname with an empty authority answer is NotFound. -/
theorem read_serves_local_witness :
    (readHandler [⟨"a", "host", "pending", 1, 1⟩] "host" (Except.ok none)).1
      = ReadResult.okLocal ⟨"a", "host", "pending", 1, 1⟩ ∧
    (readHandler [⟨"a", "host", "pending", 1, 1⟩] "host" (Except.ok none)).2
      = [⟨"a", "host", "pending", 1, 1⟩] ∧
    (readHandler [] "host" (Except.ok none)).1 = ReadResult.notFound :=
  ⟨(read_serves_local_else_authority_without_write
        [⟨"a", "host", "pending", 1, 1⟩] "host" (Except.ok none)).2.2.1
      ⟨"a", "host", "pending", 1, 1⟩ rfl,
   (read_serves_local_else_authority_without_write
        [⟨"a", "host", "pending", 1, 1⟩] "host" (Except.ok none)).1,
   (read_serves_local_else_authority_without_write [] "host" (Except.ok none)).2.2.2.1
      rfl rfl⟩

/-! ### Claim C7 -/

/-- C7: Recheck(h) answers NotFound when the table has no row for `h`;
otherwise it runs the poller (3 attempts, against the stored row's id)
synchronously: a thrown poll surfaces as the handler's error with the table
untouched (no partial record is returned), and a successful poll makes the
handler return the fetched record and write its status (with a fresh
`updated_at`) into the stored row. -/
theorem recheck_notfound_or_poll_write (db : DB) (h : String)
    (auth : String → Nat → Except String SslResult) (now : Nat) :
    (getByHostname db h = none → recheckHandler db h auth now = (RecheckResult.notFound, db)) ∧
    (∀ record, getByHostname db h = some record →
      (∀ e, (fetchCloudflareStatus (auth record.id) 3).1 = Except.error e →
        recheckHandler db h auth now = (RecheckResult.failure e, db)) ∧
      (∀ updated, (fetchCloudflareStatus (auth record.id) 3).1 = Except.ok (some updated) →
        recheckHandler db h auth now
          = (RecheckResult.ok updated, updateStatusAndTime db record.id updated.status now) ∧
        ∀ r, r ∈ (recheckHandler db h auth now).2 → r.id = record.id →
          r.status = updated.status ∧ r.updated_at = now)) := by
  constructor
  · intro hg
    simp [recheckHandler, hg]
  · intro record hg
    constructor
    · intro e he
      simp [recheckHandler, hg, he]
    · intro updated hu
      have heq : recheckHandler db h auth now
          = (RecheckResult.ok updated, updateStatusAndTime db record.id updated.status now) := by
        simp [recheckHandler, hg, hu]
      refine ⟨heq, ?_⟩
      intro r hr hid
      rw [heq] at hr
      exact mem_updateStatusAndTime db record.id updated.status now r hr hid

/-- Witness for C7: with a stored row and an authority succeeding at once,
Recheck returns the fetched record and writes status "active" with fresh
`updated_at` 9; on the empty table it answers NotFound. -/
theorem recheck_notfound_or_poll_write_witness :
    recheckHandler [⟨"abc", "host", "pending", 1, 1⟩] "host"
        (fun _ _ => Except.ok ⟨"abc", "host", "active"⟩) 9
      = (RecheckResult.ok ⟨"abc", "host", "active"⟩, [⟨"abc", "host", "active", 1, 9⟩]) ∧
    recheckHandler [] "host" (fun _ _ => Except.ok ⟨"abc", "host", "active"⟩) 9
      = (RecheckResult.notFound, []) :=
  ⟨(((recheck_notfound_or_poll_write [⟨"abc", "host", "pending", 1, 1⟩] "host"
          (fun _ _ => Except.ok ⟨"abc", "host", "active"⟩) 9).2
        ⟨"abc", "host", "pending", 1, 1⟩ rfl).2
      ⟨"abc", "host", "active"⟩ rfl).1.trans rfl,
   (recheck_notfound_or_poll_write [] "host"
        (fun _ _ => Except.ok ⟨"abc", "host", "active"⟩) 9).1 rfl⟩

/-! ### Claim C8 -/

/-- C8: whenever the authority's delete call itself succeeded — whatever its
decoded body says, partial or non-terminal included — the DELETE /ssl/:id
handler removes the local row: `getById` on the resulting table is `none`,
and the caller is answered with the authority's body. -/
theorem delete_removes_local_row (db : DB) (i : String)
    (a : Except String String) (body : String) (hok : a = Except.ok body) :
    (deleteHandler db i a).1 = CallResult.ok body ∧
    getById (deleteHandler db i a).2 i = none := by
  subst hok
  refine ⟨rfl, ?_⟩
  show getById (deleteById db i) i = none
  rw [getById, List.find?_eq_none]
  intro r hr
  have hmem := List.mem_filter.mp hr
  simpa using hmem.2

/-- Witness for C8: deleting id "abc" over a one-row table with an authority
body reporting a non-terminal result still empties the local row. -/
theorem delete_removes_local_row_witness :
    (deleteHandler [⟨"abc", "h", "pending", 1, 1⟩] "abc" (Except.ok "non-terminal")).1
      = CallResult.ok "non-terminal" ∧
    getById (deleteHandler [⟨"abc", "h", "pending", 1, 1⟩] "abc"
        (Except.ok "non-terminal")).2 "abc" = none :=
  delete_removes_local_row [⟨"abc", "h", "pending", 1, 1⟩] "abc"
    (Except.ok "non-terminal") "non-terminal" rfl

/-! ### Claim C9 -/

/-- One Create upsert leaves exactly one row carrying the created hostname,
whatever the table held before: the REPLACE removes every row conflicting on
the hostname (or the id) and inserts a single fresh one. -/
lemma countHostname_insertOrReplace (db : DB) (i h s : String) (now : Nat) :
    countHostname (insertOrReplace db i h s now) h = 1 := by
  rw [countHostname, insertOrReplace, List.filter_cons, List.filter_filter]
  simp
  intro a _ hh _
  exact hh

/-- A nonempty sequence of Creates for hostname `h` leaves exactly one row for
`h`, whatever table it started from. -/
lemma countHostname_runCreates (h : String) :
    ∀ (ops : List (String × Nat)) (db : DB), ops ≠ [] →
      countHostname (runCreates h ops db) h = 1 := by
  intro ops
  induction ops with
  | nil =>
    intro db hne
    exact absurd rfl hne
  | cons op rest ih =>
    intro db _
    by_cases hr : rest = []
    · subst hr
      exact countHostname_insertOrReplace db op.1 h "pending" op.2
    · exact ih (insertOrReplace db op.1 h "pending" op.2) hr

/-- A table with at least one row for `h` answers `getByHostname h` with some
row that carries `h`. -/
lemma getByHostname_of_count_pos (db : DB) (h : String)
    (hc : 0 < countHostname db h) :
    ∃ r, getByHostname db h = some r ∧ r.hostname = h := by
  rw [countHostname] at hc
  have hne : db.filter (fun r => r.hostname == h) ≠ [] := by
    intro hnil
    rw [hnil] at hc
    simp at hc
  obtain ⟨x, hx⟩ := List.exists_mem_of_ne_nil _ hne
  have hx2 := List.mem_filter.mp hx
  cases hfind : db.find? (fun r => r.hostname == h) with
  | some r =>
    have hp := List.find?_some hfind
    refine ⟨r, ?_, by simpa using hp⟩
    rw [getByHostname, hfind]
  | none =>
    rw [List.find?_eq_none] at hfind
    exact absurd hx2.2 (by simpa using hfind x hx2.1)

/-- C9: starting from any table holding at most one row for hostname `h`, a
sequence of Creates for `h` (arbitrary authority-assigned ids and write times)
keeps at most one row for `h` after every prefix — i.e. at all times — and once
at least one Create has run, the table holds exactly one row for `h` and
`getByHostname h` returns exactly that one record. -/
theorem creates_keep_hostname_unique (h : String) (db : DB)
    (ops : List (String × Nat)) (hdb : countHostname db h ≤ 1) :
    (∀ pre suf, ops = pre ++ suf → countHostname (runCreates h pre db) h ≤ 1) ∧
    (ops ≠ [] →
      countHostname (runCreates h ops db) h = 1 ∧
      ∃ r, getByHostname (runCreates h ops db) h = some r ∧ r.hostname = h) := by
  constructor
  · intro pre _ _
    by_cases hpre : pre = []
    · subst hpre
      exact hdb
    · exact le_of_eq (countHostname_runCreates h pre db hpre)
  · intro hne
    have hcount := countHostname_runCreates h ops db hne
    exact ⟨hcount, getByHostname_of_count_pos _ h (by omega)⟩

/-- Witness for C9: two Creates for "example.com" (authority ids "a" then "b")
on the empty table leave exactly one row for the hostname. -/
theorem creates_keep_hostname_unique_witness :
    countHostname (runCreates "example.com" [("a", 1), ("b", 2)] []) "example.com" = 1 :=
  ((creates_keep_hostname_unique "example.com" [] [("a", 1), ("b", 2)]
      (by decide)).2 (by decide)).1

end ServerMonitoring
